import Mathlib

/-!
Verification of the Thinkbuddy proxy (worker.js for Cloudflare Workers and
its Deno near-duplicate, main.ts).  The two non-trivial components are
embedded here:

* the token lifecycle manager `getValidToken` (identical logic in both
  targets), modelled as a pure function of the cached store entry, the
  current time, and oracles giving the outcome of each network call;
* the streaming response transcoder: `transformStream` from worker.js
  (carry-over buffer, per-line catch, flush) and the `ReadableStream`
  loop from main.ts (no buffer, one catch around the whole loop).

JSON values are modelled by an inductive `Json`; objects keep their keys
in insertion order, as JavaScript objects do.  `JSON.parse` is embedded
as a recursive-descent parser over character lists (numeric literals are
integers and `\u` string escapes are not supported; no input in this
development needs either).  `JSON.stringify` is embedded as `stringify`.
-/

/-- A JSON value.  Objects are insertion-ordered association lists, the
order JavaScript preserves and `JSON.stringify` serialises. -/
inductive Json where
  | null
  | bool (b : Bool)
  | num (n : Int)
  | str (s : String)
  | arr (elems : List Json)
  | obj (fields : List (String × Json))

/-- First binding of a key in an object, i.e. JavaScript property lookup
(objects built by `JSON.parse` or by this program never hold duplicate
keys). -/
def objLookup : List (String × Json) → String → Option Json
  | [], _ => none
  | (k, v) :: rest, key => if k = key then some v else objLookup rest key

/-- JavaScript property assignment on an object: overwrite in place when
the key exists (keeping its position), append otherwise. -/
def objSet : List (String × Json) → String → Json → List (String × Json)
  | [], key, v => [(key, v)]
  | (k, w) :: rest, key, v =>
    if k = key then (k, v) :: rest else (k, w) :: objSet rest key v

/-- JavaScript `delete o[key]`: remove the binding of `key`. -/
def objDelete : List (String × Json) → String → List (String × Json)
  | [], _ => []
  | (k, w) :: rest, key => if k = key then rest else (k, w) :: objDelete rest key

/-- String escaping as performed by `JSON.stringify` (the characters this
program can emit: quote, backslash, and the common control characters). -/
def escapeChar (c : Char) : List Char :=
  if c = '"' then ['\\', '"']
  else if c = '\\' then ['\\', '\\']
  else if c = '\n' then ['\\', 'n']
  else if c = '\r' then ['\\', 'r']
  else if c = '\t' then ['\\', 't']
  else [c]

/-- `JSON.stringify` of a string value. -/
def stringifyStr (s : String) : List Char :=
  '"' :: (s.data.flatMap escapeChar) ++ ['"']

mutual

/-- `JSON.stringify`: no spaces, object keys in insertion order. -/
def stringify : Json → List Char
  | Json.null => "null".data
  | Json.bool true => "true".data
  | Json.bool false => "false".data
  | Json.num n => (toString n).data
  | Json.str s => stringifyStr s
  | Json.arr xs => '[' :: stringifyArr xs ++ [']']
  | Json.obj fs => '\x7b' :: stringifyObj fs ++ ['\x7d']

def stringifyArr : List Json → List Char
  | [] => []
  | [x] => stringify x
  | x :: y :: xs => stringify x ++ ',' :: stringifyArr (y :: xs)

def stringifyObj : List (String × Json) → List Char
  | [] => []
  | [(k, v)] => stringifyStr k ++ ':' :: stringify v
  | (k, v) :: f :: fs => stringifyStr k ++ ':' :: stringify v ++ ',' :: stringifyObj (f :: fs)

end

/-- JSON whitespace (also the whitespace `String.prototype.trim` strips
that this program can meet: space, tab, newline, carriage return). -/
def isWsChar (c : Char) : Bool :=
  c = ' ' || c = '\t' || c = '\n' || c = '\r'

/-- Drop leading whitespace. -/
def skipWs : List Char → List Char
  | [] => []
  | c :: cs => if isWsChar c then skipWs cs else c :: cs

/-- JSON string escape codes (`\uXXXX` is not supported; no input in this
development uses it). -/
def decodeEscape (e : Char) : Option Char :=
  if e = '"' then some '"'
  else if e = '\\' then some '\\'
  else if e = '/' then some '/'
  else if e = 'n' then some '\n'
  else if e = 't' then some '\t'
  else if e = 'r' then some '\r'
  else if e = 'b' then some (Char.ofNat 8)
  else if e = 'f' then some (Char.ofNat 12)
  else none

/-- Parse the body of a JSON string after its opening quote, returning the
decoded characters and the input following the closing quote.  Raw control
characters are invalid, as in `JSON.parse`. -/
def parseStrChars : List Char → Option (List Char × List Char)
  | [] => none
  | ['\\'] => none
  | '\\' :: e :: cs2 =>
    match decodeEscape e with
    | none => none
    | some d =>
      match parseStrChars cs2 with
      | none => none
      | some (out, rest) => some (d :: out, rest)
  | c :: cs =>
    if c = '"' then some ([], cs)
    else if c.toNat < 32 then none
    else
      match parseStrChars cs with
      | none => none
      | some (out, rest) => some (c :: out, rest)

/-- Longest digit prefix and the rest. -/
def takeDigits : List Char → List Char × List Char
  | [] => ([], [])
  | c :: cs =>
    if c.isDigit then
      let (ds, rest) := takeDigits cs
      (c :: ds, rest)
    else ([], c :: cs)

def digitsToNat (ds : List Char) : Nat :=
  ds.foldl (fun a c => a * 10 + (c.toNat - 48)) 0

/-- A numeric literal continuing with a fraction or exponent is rejected
rather than misread (numbers are modelled as integers; nothing in this
development produces or consumes a fractional number). -/
def numTail : List Char → Bool
  | [] => false
  | c :: _ => c = '.' || c = 'e' || c = 'E'

/-- Parse an integer JSON literal. -/
def parseNum (s : List Char) : Option (Json × List Char) :=
  match s with
  | '-' :: rest =>
    match takeDigits rest with
    | ([], _) => none
    | (ds, rest2) =>
      if numTail rest2 then none
      else some (Json.num (-(digitsToNat ds : Int)), rest2)
  | _ =>
    match takeDigits s with
    | ([], _) => none
    | (ds, rest2) =>
      if numTail rest2 then none
      else some (Json.num (digitsToNat ds), rest2)

def expectLit (lit : List Char) (s : List Char) : Option (List Char) :=
  if lit.isPrefixOf s then some (s.drop lit.length) else none

/-- Combine a parsed field with the fields to its right the way repeated
JavaScript property assignment does: a duplicate key keeps its first
position but takes the later value. -/
def fieldCons (k : String) (v : Json) (fs : List (String × Json)) :
    List (String × Json) :=
  match objLookup fs k with
  | some w => (k, w) :: objDelete fs k
  | none => (k, v) :: fs

mutual

/-- Recursive-descent JSON value parser, fuelled to make termination
evident; `parseJson` supplies ample fuel. -/
def parseVal : Nat → List Char → Option (Json × List Char)
  | 0, _ => none
  | fuel + 1, s =>
    match skipWs s with
    | [] => none
    | c :: cs =>
      if c = 'n' then (expectLit "ull".data cs).map (fun r => (Json.null, r))
      else if c = 't' then (expectLit "rue".data cs).map (fun r => (Json.bool true, r))
      else if c = 'f' then (expectLit "alse".data cs).map (fun r => (Json.bool false, r))
      else if c = '"' then (parseStrChars cs).map (fun p => (Json.str ⟨p.1⟩, p.2))
      else if c = '[' then
        match skipWs cs with
        | ']' :: rest => some (Json.arr [], rest)
        | _ =>
          match parseElems fuel cs with
          | some (xs, rest) => some (Json.arr xs, rest)
          | none => none
      else if c = '\x7b' then
        match skipWs cs with
        | '\x7d' :: rest => some (Json.obj [], rest)
        | _ =>
          match parseFields fuel cs with
          | some (fs, rest) => some (Json.obj fs, rest)
          | none => none
      else if c = '-' || c.isDigit then parseNum (c :: cs)
      else none

/-- Elements of a non-empty array, up to and including `]`. -/
def parseElems : Nat → List Char → Option (List Json × List Char)
  | 0, _ => none
  | fuel + 1, s =>
    match parseVal fuel s with
    | none => none
    | some (x, rest) =>
      match skipWs rest with
      | ',' :: rest2 =>
        match parseElems fuel rest2 with
        | some (xs, rest3) => some (x :: xs, rest3)
        | none => none
      | ']' :: rest2 => some ([x], rest2)
      | _ => none

/-- Fields of a non-empty object, up to and including the closing brace. -/
def parseFields : Nat → List Char → Option (List (String × Json) × List Char)
  | 0, _ => none
  | fuel + 1, s =>
    match skipWs s with
    | '"' :: cs =>
      match parseStrChars cs with
      | none => none
      | some (kcs, rest) =>
        match skipWs rest with
        | ':' :: rest2 =>
          match parseVal fuel rest2 with
          | none => none
          | some (v, rest3) =>
            match skipWs rest3 with
            | ',' :: rest4 =>
              match parseFields fuel rest4 with
              | some (fs, rest5) => some (fieldCons ⟨kcs⟩ v fs, rest5)
              | none => none
            | '\x7d' :: rest4 => some ([(⟨kcs⟩, v)], rest4)
            | _ => none
        | _ => none
    | _ => none

end

/-- The embedding of `JSON.parse`: parse one value, allow trailing
whitespace, reject trailing garbage (a failure models the thrown
`SyntaxError`). -/
def parseJson (s : List Char) : Option Json :=
  match parseVal (2 * s.length + 8) s with
  | some (j, rest) => if skipWs rest = [] then some j else none
  | none => none

/-!  JavaScript evaluation semantics for the handful of property reads,
optional chains, assignments and deletes the transcoder performs.
`Option Json` stands for a possibly-`undefined` value; `Except Unit`
carries a thrown `TypeError`. -/

/-- Property read `v.k` on a defined value: reading a property of `null`
throws; objects look the key up (absent gives `undefined`); arrays,
strings, numbers and booleans have none of the (non-numeric) properties
this program reads. -/
def getProp : Json → String → Except Unit (Option Json)
  | Json.null, _ => Except.error ()
  | Json.obj fs, k => Except.ok (objLookup fs k)
  | _, _ => Except.ok none

/-- Index read `v[0]` on a defined non-null value: arrays give their first
element, plain objects their `"0"` property (numeric indices are coerced
to string keys), a non-empty string its first character, numbers and
booleans `undefined`. -/
def getIdx0 : Json → Except Unit (Option Json)
  | Json.null => Except.error ()
  | Json.arr [] => Except.ok none
  | Json.arr (x :: _) => Except.ok (some x)
  | Json.obj fs => Except.ok (objLookup fs "0")
  | Json.str s =>
    match s.data with
    | [] => Except.ok none
    | c :: _ => Except.ok (some (Json.str ⟨[c]⟩))
  | _ => Except.ok none

/-- Optional chain `x?.k`: `undefined` and `null` short-circuit to
`undefined` instead of throwing. -/
def optProp : Option Json → String → Except Unit (Option Json)
  | none, _ => Except.ok none
  | some Json.null, _ => Except.ok none
  | some v, k => getProp v k

/-- Optional chain `x?.[0]`. -/
def optIdx0 : Option Json → Except Unit (Option Json)
  | none => Except.ok none
  | some Json.null => Except.ok none
  | some v => getIdx0 v

/-- `data.choices?.[0]`: the first read `data.choices` is unguarded (it
throws when `data` is `null`), the index is optional-chained. -/
def jsChoices0 (data : Json) : Except Unit (Option Json) := do
  let c ← getProp data "choices"
  optIdx0 c

/-- JavaScript truthiness of a defined JSON value. -/
def jsTruthy : Json → Bool
  | Json.null => false
  | Json.bool b => b
  | Json.num n => n != 0
  | Json.str s => s != ""
  | Json.arr _ => true
  | Json.obj _ => true

/-- Truthiness of a possibly-`undefined` value. -/
def jsTruthyOpt : Option Json → Bool
  | none => false
  | some v => jsTruthy v

/-- The assignment `data.choices[0].f = v`: `data.choices` is resolved
without optional chaining, indexed, and assigned on.  The target must be
a plain object: assigning a property on `undefined`, `null` or a
primitive throws in strict mode (both deployment targets are strict-mode
code).  A `choices[0]` that is itself an array never occurs in a state
this program reaches and is modelled as a throw as well. -/
def setChoice0 (data : Json) (f : String) (v : Json) : Except Unit Json :=
  match data with
  | Json.obj kvs =>
    match objLookup kvs "choices" with
    | some (Json.arr (Json.obj fs :: rest)) =>
      Except.ok (Json.obj (objSet kvs "choices"
        (Json.arr (Json.obj (objSet fs f v) :: rest))))
    | some (Json.obj os) =>
      match objLookup os "0" with
      | some (Json.obj fs) =>
        Except.ok (Json.obj (objSet kvs "choices"
          (Json.obj (objSet os "0" (Json.obj (objSet fs f v))))))
      | _ => Except.error ()
    | _ => Except.error ()
  | _ => Except.error ()

/-- `data.choices[0].delta.content = t`: the delta object must itself be a
plain object, otherwise the assignment throws.  The value `t` is the one
the right-hand side `data.choices[0].text` reads; the caller has just
established it on the same unchanged object. -/
def setDeltaContent (data : Json) (t : Json) : Except Unit Json := do
  let c0 ← jsChoices0 data
  match c0 with
  | some (Json.obj fs) =>
    match objLookup fs "delta" with
    | some (Json.obj ds) =>
      setChoice0 data "delta" (Json.obj (objSet ds "content" t))
    | _ => Except.error ()
  | _ => Except.error ()

/-- `delete data.choices[0].text`. -/
def deleteChoice0Text (data : Json) : Except Unit Json :=
  match data with
  | Json.obj kvs =>
    match objLookup kvs "choices" with
    | some (Json.arr (Json.obj fs :: rest)) =>
      Except.ok (Json.obj (objSet kvs "choices"
        (Json.arr (Json.obj (objDelete fs "text") :: rest))))
    | some (Json.obj os) =>
      match objLookup os "0" with
      | some (Json.obj fs) =>
        Except.ok (Json.obj (objSet kvs "choices"
          (Json.obj (objSet os "0" (Json.obj (objDelete fs "text"))))))
      | _ => Except.error ()
    | _ => Except.error ()
  | _ => Except.error ()

/-- The normalization block shared by worker.js (lines 222–230) and
main.ts (lines 280–288), run on a parsed non-sentinel payload:

    if (data.choices?.[0]?.delta === undefined) data.choices[0].delta = {};
    if (data.choices?.[0]?.delta?.content === undefined && data.choices?.[0]?.text) {
      data.choices[0].delta.content = data.choices[0].text;
      delete data.choices[0].text;
    }

A thrown `TypeError` surfaces as `Except.error`. -/
def normalizePayload (data : Json) : Except Unit Json := do
  let c0 ← jsChoices0 data
  let dl ← optProp c0 "delta"
  let d1 ← match dl with
    | none => setChoice0 data "delta" (Json.obj [])
    | some _ => pure data
  let c1 ← jsChoices0 d1
  let dl1 ← optProp c1 "delta"
  let ct ← optProp dl1 "content"
  match ct with
  | some _ => pure d1
  | none =>
    let tx ← optProp c1 "text"
    match tx with
    | none => pure d1
    | some t =>
      if jsTruthy t then do
        let d2 ← setDeltaContent d1 t
        deleteChoice0Text d2
      else pure d1

/-- `data.choices?.[0]?.finish_reason` tested for truthiness. -/
def finishTruthy (data : Json) : Except Unit Bool := do
  let c ← jsChoices0 data
  let fr ← optProp c "finish_reason"
  pure (jsTruthyOpt fr)

/-- Normalization followed by the finish-reason test, the order both
implementations execute them in. -/
def normalizeFin (data : Json) : Except Unit (Json × Bool) := do
  let nd ← normalizePayload data
  let fin ← finishTruthy nd
  pure (nd, fin)

/-!  The Stream Transcoder.  worker.js pipes the upstream body through a
`TransformStream` whose `transform` keeps a carry-over `buffer` for the
last, possibly incomplete, line of each chunk and whose `flush` drains it;
main.ts reads the upstream body in a loop with no carry-over buffer.
Chunks and emitted events are character lists; each list element of a run's
output is one `controller.enqueue` argument. -/

/-- `String.prototype.split("\n")`:  `"a\nb" ↦ ["a","b"]`, a trailing
newline yields a final empty piece, the empty string yields `[""]`. -/
def splitNl : List Char → List (List Char)
  | [] => [[]]
  | c :: cs =>
    if c = '\n' then [] :: splitNl cs
    else
      match splitNl cs with
      | [] => [[c]]
      | l :: ls => (c :: l) :: ls

/-- `String.prototype.trim` over the whitespace characters that occur in
SSE traffic. -/
def jsTrim (s : List Char) : List Char :=
  (((s.dropWhile isWsChar).reverse).dropWhile isWsChar).reverse

/-- `line.startsWith("data: ")`. -/
def startsWithData (l : List Char) : Bool :=
  "data: ".data.isPrefixOf l

/-- The terminal event `"data: [DONE]\n\n"`. -/
def doneEvent : List Char := "data: [DONE]\n\n".data

/-- An emitted normalized event: `` `data: ${JSON.stringify(data)}\n\n` ``. -/
def dataEvent (j : Json) : List Char :=
  "data: ".data ++ stringify j ++ "\n\n".data

/-- `data === "[DONE]"` on a parsed payload. -/
def isSentinel : Json → Bool
  | Json.str s => s = "[DONE]"
  | _ => false

/-- One complete line of worker.js's transform loop (lines 211–244): skip
blank lines and lines without the `data: ` prefix; parse the rest; a
parsed sentinel string enqueues `[DONE]` and returns from the callback;
otherwise normalize and enqueue, and a truthy `finish_reason` also
enqueues `[DONE]` and returns.  A thrown error (parse failure or
normalization `TypeError`) is caught by the per-line handler and the line
is skipped.  The boolean records an early `return`, which abandons the
remaining lines of the current chunk only — it does not terminate the
transform stream. -/
def processLine (line : List Char) : List (List Char) × Bool :=
  if jsTrim line = [] then ([], false)
  else if ¬ startsWithData line then ([], false)
  else
    match parseJson (line.drop 6) with
    | none => ([], false)
    | some data =>
      if isSentinel data then ([doneEvent], true)
      else
        match normalizeFin data with
        | Except.error _ => ([], false)
        | Except.ok (nd, true) => ([dataEvent nd, doneEvent], true)
        | Except.ok (nd, false) => ([dataEvent nd], false)

/-- The `for (const line of lines)` loop with its early `return`. -/
def processLines : List (List Char) → List (List Char)
  | [] => []
  | l :: ls =>
    let r := processLine l
    if r.2 then r.1 else r.1 ++ processLines ls

/-- worker.js `transform(chunk, controller)` (lines 205–245): append the
chunk to the buffer, split on newlines, keep the last (possibly
incomplete) piece as the new buffer, process the complete lines.  Returns
the new buffer and the enqueued events. -/
def transformChunk (buffer chunk : List Char) : List Char × List (List Char) :=
  let lines := splitNl (buffer ++ chunk)
  ((lines.getLast?).getD [], processLines lines.dropLast)

/-- worker.js `flush(controller)` (lines 247–262): if the trimmed leftover
buffer is a `data: ` line parsing as valid non-sentinel JSON, emit it
as-is (not re-stringified); parse failures are caught and dropped; then
always enqueue one final `[DONE]`. -/
def flushBuffer (buffer : List Char) : List (List Char) :=
  let line := jsTrim buffer
  let tail :=
    if line = [] then []
    else if startsWithData line then
      match parseJson (line.drop 6) with
      | none => []
      | some data => if isSentinel data then [] else [line ++ "\n\n".data]
    else []
  tail ++ [doneEvent]

/-- Fold the transform over a list of chunks, threading the buffer. -/
def workerChunks : List Char → List (List Char) → List Char × List (List Char)
  | buf, [] => (buf, [])
  | buf, c :: cs =>
    let r := transformChunk buf c
    let r2 := workerChunks r.1 cs
    (r2.1, r.2 ++ r2.2)

/-- The complete worker.js transcoder on an upstream chunk sequence:
transform every chunk, then flush at end of input. -/
def workerRun (chunks : List (List Char)) : List (List Char) :=
  let r := workerChunks [] chunks
  r.2 ++ flushBuffer r.1

/-- Outcome of the main.ts stream: `closed` via `controller.close()`,
or `errored` via `controller.error(e)` from the catch block. -/
inductive DenoOutcome where
  | closed
  | errored
deriving DecidableEq

/-- Events enqueued by the main.ts stream before it terminated, and how
it terminated. -/
structure DenoResult where
  events : List (List Char)
  outcome : DenoOutcome
deriving DecidableEq

/-- One line of main.ts's loop (lines 269–299).  There is no per-line
catch: a parse failure or normalization `TypeError` propagates to the
single catch around the whole read loop, which calls
`controller.error`. -/
inductive DenoStep where
  | next (evs : List (List Char))
  | close (evs : List (List Char))
  | err

def denoLine (line : List Char) : DenoStep :=
  if jsTrim line = [] then DenoStep.next []
  else if ¬ startsWithData line then DenoStep.next []
  else
    match parseJson (line.drop 6) with
    | none => DenoStep.err
    | some data =>
      if isSentinel data then DenoStep.close [doneEvent]
      else
        match normalizeFin data with
        | Except.error _ => DenoStep.err
        | Except.ok (nd, true) => DenoStep.close [dataEvent nd, doneEvent]
        | Except.ok (nd, false) => DenoStep.next [dataEvent nd]

/-- main.ts's line loop over one chunk: `none` means fall through to the
next chunk. -/
def denoLines : List (List Char) → List (List Char) × Option DenoOutcome
  | [] => ([], none)
  | l :: ls =>
    match denoLine l with
    | DenoStep.next evs =>
      let r := denoLines ls
      (evs ++ r.1, r.2)
    | DenoStep.close evs => (evs, some DenoOutcome.closed)
    | DenoStep.err => ([], some DenoOutcome.errored)

/-- main.ts's read loop (lines 258–300): each chunk is split on newlines
with NO carry-over buffer; end of input enqueues `[DONE]` and closes. -/
def denoChunks : List (List Char) → DenoResult
  | [] => ⟨[doneEvent], DenoOutcome.closed⟩
  | c :: cs =>
    match denoLines (splitNl c) with
    | (evs, none) =>
      let r := denoChunks cs
      ⟨evs ++ r.events, r.outcome⟩
    | (evs, some o) => ⟨evs, o⟩

/-- The complete main.ts transcoder on an upstream chunk sequence. -/
def denoRun (chunks : List (List Char)) : DenoResult :=
  denoChunks chunks

/-!  The token lifecycle manager.  `getValidToken` (worker.js lines 91–115;
identical logic in main.ts lines 131–155) is embedded as a pure function of
the cached store entry, the current time, and oracles giving the outcome of
the refresh call and of the i-th registration call.  The trace records the
returned token or thrown error message, the final store content, and how
many store and network operations ran. -/

/-- The token record cached per API key (`TokenInfo` in the source). -/
structure TokenInfo where
  token : String
  refreshToken : String
  expiresAt : Int
deriving DecidableEq

/-- Outcome of one identity-provider HTTP call: a token record, or a
non-success response whose `statusText` goes into the thrown message. -/
inductive NetResult where
  | ok (info : TokenInfo)
  | fail (statusText : String)
deriving DecidableEq

instance : DecidableEq (Except String String) := fun x y =>
  match x, y with
  | Except.ok a, Except.ok b =>
    if h : a = b then Decidable.isTrue (congrArg Except.ok h)
    else Decidable.isFalse (fun hc => h (Except.ok.inj hc))
  | Except.error a, Except.error b =>
    if h : a = b then Decidable.isTrue (congrArg Except.error h)
    else Decidable.isFalse (fun hc => h (Except.error.inj hc))
  | Except.ok _, Except.error _ => Decidable.isFalse (fun hc => Except.noConfusion hc)
  | Except.error _, Except.ok _ => Decidable.isFalse (fun hc => Except.noConfusion hc)

/-- What one invocation of `getValidToken` did. -/
structure AuthTrace where
  result : Except String String
  store : Option TokenInfo
  reads : Nat
  writes : Nat
  refreshCalls : Nat
  registerCalls : Nat
deriving DecidableEq

/-- The message of the error `refreshToken` throws on a non-success
response. -/
def refreshMsg (st : String) : String := "Failed to refresh token: " ++ st

/-- The message of the error `registerUser` throws on a non-success
response. -/
def registerMsg (st : String) : String := "Failed to register user: " ++ st

/-- `needle` occurs as a contiguous run inside `hay`. -/
def infixOf (needle : List Char) : List Char → Bool
  | [] => needle.isEmpty
  | c :: t => needle.isPrefixOf (c :: t) || infixOf needle t

/-- `String.prototype.includes`. -/
def strIncludes (s sub : String) : Bool := infixOf sub.data s.data

/-- The catch block of `getValidToken`: if the caught error's message
contains the substring `"Failed to refresh token"`, attempt one
registration and store its result; otherwise rethrow.  `regSoFar` is the
number of registration calls the try block already made (the oracle index
of the next one). -/
def authCatch (msg : String) (kv : Option TokenInfo) (refCalls regSoFar : Nat)
    (registerNet : Nat → NetResult) : AuthTrace :=
  if strIncludes msg "Failed to refresh token" then
    match registerNet regSoFar with
    | NetResult.ok ni =>
      ⟨Except.ok ni.token, some ni, 1, 1, refCalls, regSoFar + 1⟩
    | NetResult.fail st =>
      ⟨Except.error (registerMsg st), kv, 1, 0, refCalls, regSoFar + 1⟩
  else ⟨Except.error msg, kv, 1, 0, refCalls, regSoFar⟩

/-- `getValidToken` (worker.js 91–115): read the cached record; if absent
or within the 5-minute (300000 ms) renewal margin of expiry, refresh (when
a record exists) or register (when none does) and store the new record;
otherwise return the cached token.  Errors from the try block whose
message contains `"Failed to refresh token"` trigger one registration
fallback. -/
def getValidToken (kv : Option TokenInfo) (now : Int)
    (refreshNet : NetResult) (registerNet : Nat → NetResult) : AuthTrace :=
  match kv with
  | some info =>
    if now ≥ info.expiresAt - 300000 then
      match refreshNet with
      | NetResult.ok ni => ⟨Except.ok ni.token, some ni, 1, 1, 1, 0⟩
      | NetResult.fail st => authCatch (refreshMsg st) kv 1 0 registerNet
    else ⟨Except.ok info.token, kv, 1, 0, 0, 0⟩
  | none =>
    match registerNet 0 with
    | NetResult.ok ni => ⟨Except.ok ni.token, some ni, 1, 1, 0, 1⟩
    | NetResult.fail st => authCatch (registerMsg st) kv 0 1 registerNet

/-!  Concrete upstream fixtures used by the stream-transcoder claims.
`dataLine j` is the upstream line `` `data: ${JSON.stringify(j)}\n` ``. -/

def dataLine (j : Json) : List Char := "data: ".data ++ stringify j ++ ['\n']

/-- `{"choices":[{"finish_reason":"stop"}]}` — the spec's finish example. -/
def finishPayload : Json :=
  Json.obj [("choices", Json.arr [Json.obj [("finish_reason", Json.str "stop")]])]

/-- What the transcoder emits for `finishPayload`: normalization appends an
empty `delta`. -/
def finishNormalized : Json :=
  Json.obj [("choices", Json.arr
    [Json.obj [("finish_reason", Json.str "stop"), ("delta", Json.obj [])]])]

/-- `{"choices":[{"delta":{"content":"x"}}]}` — an already-normalized
streaming delta. -/
def xPayload : Json :=
  Json.obj [("choices", Json.arr
    [Json.obj [("delta", Json.obj [("content", Json.str "x")])]])]

/-- `{"choices":[{"delta":{"content":"hi"}}]}` — the spec's split-line
example payload. -/
def hiPayload : Json :=
  Json.obj [("choices", Json.arr
    [Json.obj [("delta", Json.obj [("content", Json.str "hi")])]])]

def aPayload : Json :=
  Json.obj [("choices", Json.arr
    [Json.obj [("delta", Json.obj [("content", Json.str "a")])]])]

def bPayload : Json :=
  Json.obj [("choices", Json.arr
    [Json.obj [("delta", Json.obj [("content", Json.str "b")])]])]

/-- `data: {bad` followed by a newline — a corrupt JSON line. -/
def badLine : List Char := "data: ".data ++ '\x7b' :: "bad".data ++ ['\n']

/-- The literal upstream sentinel line `data: [DONE]` followed by a further
valid data line, all in one chunk. -/
def sentinelChunk : List Char := "data: [DONE]\n".data ++ dataLine xPayload

/-- `{"choices":[{"text":""}]}` — a legacy `text` field that is present
but falsy (the empty string). -/
def emptyTextPayload : Json :=
  Json.obj [("choices", Json.arr [Json.obj [("text", Json.str "")]])]

/-- What the transcoder actually emits for `emptyTextPayload`: the empty
`delta` is created, but the falsy `text` is neither moved nor removed. -/
def emptyTextNormalized : Json :=
  Json.obj [("choices", Json.arr
    [Json.obj [("text", Json.str ""), ("delta", Json.obj [])]])]

/-- `{"choices":{"0":{"delta":{"content":"x"}}}}` — `choices` is a plain
object with a `"0"` property, not an array. -/
def choicesObjPayload : Json :=
  Json.obj [("choices", Json.obj
    [("0", Json.obj [("delta", Json.obj [("content", Json.str "x")])])])]

/-- `{"choices":[{"text":"hi"}]}` — the spec's legacy-text example. -/
def hiTextPayload : Json :=
  Json.obj [("choices", Json.arr [Json.obj [("text", Json.str "hi")]])]

/-- A registration oracle whose first call fails with a status text that
happens to contain the string the catch block greps for. -/
def evilRegisterNet : Nat → NetResult := fun i =>
  if i = 0 then NetResult.fail "Failed to refresh token"
  else NetResult.ok ⟨"tok2", "ref2", 9999999⟩

/-- Claim C1 (code bug): the claim says every stream the transcoder
produces ends with exactly one terminal `data: [DONE]\n\n` event, the
end-of-input flush never adding a second one to an already-terminated
stream.  In worker.js the early `return` after the finish-reason (or
sentinel) emission does not terminate the `TransformStream`, and `flush`
unconditionally enqueues another `[DONE]` at end of input: an upstream
consisting of the single line `data: {"choices":[{"finish_reason":"stop"}]}`
yields a stream ending in TWO `[DONE]` events. -/
theorem workerRun_finish_double_done :
    workerRun [dataLine finishPayload] =
      [dataEvent finishNormalized, doneEvent, doneEvent] := by decide

/-- Claim C2 (code bug): the claim says a complete line `data: [DONE]` is
recognised as the sentinel, one terminal `[DONE]` is emitted and the
stream ends.  Both implementations first run `JSON.parse` on the
remainder `[DONE]`, which throws (it is not valid JSON), so the
`data === "[DONE]"` comparison is never reached for the literal sentinel
line: worker.js skips the line in its per-line catch and keeps processing
(the following data line is still emitted, and the only `[DONE]` comes
from the flush); main.ts lets the parse error reach `controller.error`,
aborting the stream with no `[DONE]` at all. -/
theorem sentinel_line_not_recognized :
    workerRun [sentinelChunk] = [dataEvent xPayload, doneEvent] ∧
    denoRun [sentinelChunk] = ⟨[], DenoOutcome.errored⟩ := by decide

/-- Claim C3 (code bug): the claim says that after a payload carrying
`choices[0].finish_reason` the transcoder emits the normalized event plus
one terminal `[DONE]` and ignores all further input.  In worker.js the
early `return` only abandons the rest of the current chunk: a subsequent
chunk is transformed normally, and the flush appends a second `[DONE]`. -/
theorem workerRun_after_finish_continues :
    workerRun [dataLine finishPayload, dataLine xPayload] =
      [dataEvent finishNormalized, doneEvent, dataEvent xPayload, doneEvent] := by
  decide

/-- Claim C4 (code bug): the claim says one corrupt JSON line between two
valid lines is skipped, the output being exactly the two valid normalized
events plus one `[DONE]`, with no thrown error.  worker.js does exactly
that (per-line try/catch with `continue`); main.ts has no per-line catch,
so the `JSON.parse` failure reaches the catch around the whole read loop,
which calls `controller.error`: the stream aborts after the first event
with no `[DONE]`. -/
theorem malformed_line_worker_skips_deno_aborts :
    workerRun [dataLine aPayload ++ badLine ++ dataLine bPayload] =
      [dataEvent aPayload, dataEvent bPayload, doneEvent] ∧
    denoRun [dataLine aPayload ++ badLine ++ dataLine bPayload] =
      ⟨[dataEvent aPayload], DenoOutcome.errored⟩ := by decide

/-- Claim C5 (code bug): the claim says a `data: ` line split across two
chunks is reassembled via the carry-over buffer and processed as exactly
one event.  worker.js does (its buffered transform gives the same output
for the split input as for the whole line); main.ts has no carry-over
buffer at all: the first fragment `data: {"cho` is parsed on its own,
`JSON.parse` throws, and the stream aborts. -/
theorem split_line_worker_reassembles_deno_aborts :
    workerRun [(dataLine hiPayload).take 11, (dataLine hiPayload).drop 11] =
      [dataEvent hiPayload, doneEvent] ∧
    workerRun [dataLine hiPayload] = [dataEvent hiPayload, doneEvent] ∧
    denoRun [(dataLine hiPayload).take 11, (dataLine hiPayload).drop 11] =
      ⟨[], DenoOutcome.errored⟩ := by decide

/-!  Association-list lemmas used by the normalization theorems. -/

theorem except_bind_err {α β γ : Type} (e : α) (f : β → Except α γ) :
    (Except.error e : Except α β) >>= f = Except.error e := rfl

theorem except_bind_ok {α β γ : Type} (b : β) (f : β → Except α γ) :
    (Except.ok b : Except α β) >>= f = f b := rfl

theorem objLookup_objSet_self (l : List (String × Json)) (k : String) (v : Json) :
    objLookup (objSet l k v) k = some v := by
  induction l with
  | nil => simp [objSet, objLookup]
  | cons p rest ih =>
    by_cases h : p.1 = k
    · simp [objSet, h, objLookup]
    · simp [objSet, h, objLookup, ih]

theorem objLookup_objSet_ne (l : List (String × Json)) (k key : String) (v : Json)
    (h : k ≠ key) : objLookup (objSet l k v) key = objLookup l key := by
  induction l with
  | nil => simp [objSet, objLookup, h]
  | cons p rest ih =>
    obtain ⟨k1, v1⟩ := p
    by_cases hp : k1 = k
    · subst hp
      simp [objSet, objLookup, h]
    · simp [objSet, hp, objLookup, ih]

theorem objSet_objSet_self (l : List (String × Json)) (k : String) (v w : Json) :
    objSet (objSet l k v) k w = objSet l k w := by
  induction l with
  | nil => simp [objSet]
  | cons p rest ih =>
    obtain ⟨k1, v1⟩ := p
    by_cases hp : k1 = k
    · simp [objSet, hp]
    · simp [objSet, hp, ih]

theorem objLookup_objDelete_ne (l : List (String × Json)) (k key : String)
    (h : k ≠ key) : objLookup (objDelete l k) key = objLookup l key := by
  induction l with
  | nil => simp [objDelete]
  | cons p rest ih =>
    obtain ⟨k1, v1⟩ := p
    by_cases hp : k1 = k
    · subst hp
      simp [objDelete, objLookup, h]
    · by_cases hq : k1 = key
      · subst hq
        simp [objDelete, hp, objLookup]
      · simp [objDelete, hp, objLookup, hq, ih]

theorem objLookup_eq_none_of_not_mem (l : List (String × Json)) (k : String)
    (h : k ∉ l.map Prod.fst) : objLookup l k = none := by
  induction l with
  | nil => rfl
  | cons p rest ih =>
    obtain ⟨k1, v1⟩ := p
    simp only [List.map_cons, List.mem_cons, not_or] at h
    have hne : k1 ≠ k := fun hq => h.1 hq.symm
    simp [objLookup, hne, ih h.2]

theorem objLookup_objDelete_self (l : List (String × Json)) (k : String)
    (h : (l.map Prod.fst).Nodup) : objLookup (objDelete l k) k = none := by
  induction l with
  | nil => rfl
  | cons p rest ih =>
    obtain ⟨k1, v1⟩ := p
    rw [List.map_cons, List.nodup_cons] at h
    by_cases hp : k1 = k
    · simp only [objDelete, if_pos hp]
      exact objLookup_eq_none_of_not_mem rest k (hp ▸ h.1)
    · simp [objDelete, hp, objLookup, ih h.2]

theorem not_mem_keys_objSet (l : List (String × Json)) (k key : String) (v : Json)
    (h : key ∉ l.map Prod.fst) (hk : key ≠ k) :
    key ∉ (objSet l k v).map Prod.fst := by
  induction l with
  | nil => simpa [objSet] using hk
  | cons p rest ih =>
    obtain ⟨k1, v1⟩ := p
    simp only [List.map_cons, List.mem_cons, not_or] at h
    by_cases hp : k1 = k
    · simp only [objSet, if_pos hp, List.map_cons, List.mem_cons, not_or]
      exact ⟨h.1, h.2⟩
    · simp only [objSet, if_neg hp, List.map_cons, List.mem_cons, not_or]
      exact ⟨h.1, ih h.2⟩

theorem nodup_keys_objSet (l : List (String × Json)) (k : String) (v : Json)
    (h : (l.map Prod.fst).Nodup) : ((objSet l k v).map Prod.fst).Nodup := by
  induction l with
  | nil => simp [objSet]
  | cons p rest ih =>
    obtain ⟨k1, v1⟩ := p
    rw [List.map_cons, List.nodup_cons] at h
    by_cases hp : k1 = k
    · rw [objSet, if_pos hp, List.map_cons, List.nodup_cons]
      exact ⟨h.1, h.2⟩
    · rw [objSet, if_neg hp, List.map_cons, List.nodup_cons]
      exact ⟨not_mem_keys_objSet rest k k1 v h.1 hp, ih h.2⟩

/-- Claim C9 counterexample: the claim says that whenever `delta.content`
is absent and a legacy `choices[0].text` field is PRESENT, the value of
`text` is moved into `delta.content` and the `text` key is removed.  The
code tests `data.choices?.[0]?.text` for truthiness, not presence: for the
payload `{"choices":[{"text":""}]}` the present-but-falsy `text` stays in
place (and no `content` is created), so the emitted event still carries
the `text` key. -/
theorem workerRun_empty_text_not_moved :
    workerRun [dataLine emptyTextPayload] =
      [dataEvent emptyTextNormalized, doneEvent] := by decide

/-- Claim C10 counterexample: the claim says every valid-JSON non-sentinel
payload with no `choices` array of at least one element is silently
dropped.  JavaScript index access coerces `0` to the string key `"0"`, so
for `{"choices":{"0":{"delta":{"content":"x"}}}}` — which has no `choices`
array — `data.choices?.[0]` succeeds, normalization finds `delta.content`
in place, and the worker emits an event for the line. -/
theorem workerRun_choices_object_emits :
    workerRun [dataLine choicesObjPayload] =
      [dataEvent choicesObjPayload, doneEvent] := by decide

/-- When the `data.choices?.[0]` chain yields `undefined` or `null`, the
unguarded assignment `data.choices[0].delta = {}` throws a `TypeError`. -/
theorem setChoice0_error (j : Json) (f : String) (v : Json)
    (h : jsChoices0 j = Except.ok none ∨ jsChoices0 j = Except.ok (some Json.null)) :
    setChoice0 j f v = Except.error () := by
  cases j with
  | null => simp [jsChoices0, getProp, except_bind_err] at h
  | obj kvs =>
    simp only [jsChoices0, getProp, except_bind_ok] at h
    cases hlk : objLookup kvs "choices" with
    | none => simp [setChoice0, hlk]
    | some v' =>
      rw [hlk] at h
      cases v' with
      | null => simp [setChoice0, hlk]
      | bool b => simp [setChoice0, hlk]
      | num n => simp [setChoice0, hlk]
      | str s =>
        cases hs : s.data with
        | nil => simp [setChoice0, hlk]
        | cons c cs => simp [optIdx0, getIdx0, hs] at h
      | arr xs =>
        cases xs with
        | nil => simp [setChoice0, hlk]
        | cons x xs' =>
          simp only [optIdx0, getIdx0] at h
          rcases h with h | h
          · simp at h
          · have hx : x = Json.null := by
              injection h with h1
              injection h1
            subst hx
            simp [setChoice0, hlk]
      | obj os =>
        simp only [optIdx0, getIdx0] at h
        cases h0 : objLookup os "0" with
        | none => simp [setChoice0, hlk, h0]
        | some w =>
          rw [h0] at h
          rcases h with h | h
          · simp at h
          · have hw : w = Json.null := by
              injection h with h1
              injection h1
            subst hw
            simp [setChoice0, hlk, h0]
  | bool b => simp [setChoice0]
  | num n => simp [setChoice0]
  | str s => simp [setChoice0]
  | arr xs => simp [setChoice0]

/-- A payload on which the `choices[0]` chain gives no usable value makes
the whole normalization block throw (and in worker.js the per-line catch
then skips the line). -/
theorem normalizePayload_error (j : Json)
    (h : jsChoices0 j = Except.error () ∨ jsChoices0 j = Except.ok none ∨
         jsChoices0 j = Except.ok (some Json.null)) :
    normalizePayload j = Except.error () := by
  rcases h with h | h | h
  · simp [normalizePayload, h, except_bind_err]
  · have hs := setChoice0_error j "delta" (Json.obj []) (Or.inl h)
    simp [normalizePayload, h, except_bind_ok, optProp, hs, except_bind_err]
  · have hs := setChoice0_error j "delta" (Json.obj []) (Or.inr h)
    simp [normalizePayload, h, except_bind_ok, optProp, hs, except_bind_err]

/-- Claim C10 (amended, proved): for every complete line whose payload
parses as valid JSON, is not the sentinel, and whose `choices[0]` access
(JavaScript semantics: element 0 of an array, or property `"0"` of an
object) yields `undefined` or `null` or throws, the worker transcoder
emits no event for the line and continues: the normalization `TypeError`
is caught by the per-line handler, so nothing escapes the transform and
the line is silently dropped. -/
theorem processLine_choiceless_line_skipped (line : List Char) (j : Json)
    (hp : parseJson (line.drop 6) = some j)
    (hs : isSentinel j = false)
    (hc : jsChoices0 j = Except.error () ∨ jsChoices0 j = Except.ok none ∨
          jsChoices0 j = Except.ok (some Json.null)) :
    processLine line = ([], false) := by
  by_cases ht : jsTrim line = []
  · simp [processLine, ht]
  · by_cases hd : startsWithData line
    · simp [processLine, ht, hd, hp, hs, normalizeFin,
        normalizePayload_error j hc, except_bind_err]
    · simp [processLine, ht, hd]

theorem processLine_choiceless_line_skipped_witness :
    parseJson (("data: ".data ++ stringify (Json.obj [])).drop 6) = some (Json.obj []) ∧
    isSentinel (Json.obj []) = false ∧
    processLine ("data: ".data ++ stringify (Json.obj [])) = ([], false) :=
  ⟨rfl, rfl, processLine_choiceless_line_skipped _ (Json.obj []) rfl rfl
    (Or.inr (Or.inl rfl))⟩

theorem jsChoices0_arr (kvs o : List (String × Json)) (rest : List Json)
    (h : objLookup kvs "choices" = some (Json.arr (Json.obj o :: rest))) :
    jsChoices0 (Json.obj kvs) = Except.ok (some (Json.obj o)) := by
  simp [jsChoices0, getProp, except_bind_ok, h, optIdx0, getIdx0]

theorem setChoice0_arr (kvs o : List (String × Json)) (rest : List Json)
    (f : String) (v : Json)
    (h : objLookup kvs "choices" = some (Json.arr (Json.obj o :: rest))) :
    setChoice0 (Json.obj kvs) f v =
      Except.ok (Json.obj (objSet kvs "choices"
        (Json.arr (Json.obj (objSet o f v) :: rest)))) := by
  simp [setChoice0, h]

theorem deleteChoice0Text_arr (kvs o : List (String × Json)) (rest : List Json)
    (h : objLookup kvs "choices" = some (Json.arr (Json.obj o :: rest))) :
    deleteChoice0Text (Json.obj kvs) =
      Except.ok (Json.obj (objSet kvs "choices"
        (Json.arr (Json.obj (objDelete o "text") :: rest)))) := by
  simp [deleteChoice0Text, h]

theorem setDeltaContent_arr (kvs o ds : List (String × Json)) (rest : List Json)
    (t : Json)
    (h : objLookup kvs "choices" = some (Json.arr (Json.obj o :: rest)))
    (hdl : objLookup o "delta" = some (Json.obj ds)) :
    setDeltaContent (Json.obj kvs) t =
      Except.ok (Json.obj (objSet kvs "choices"
        (Json.arr (Json.obj (objSet o "delta" (Json.obj (objSet ds "content" t)))
          :: rest)))) := by
  simp [setDeltaContent, jsChoices0_arr kvs o rest h, except_bind_ok, hdl,
    setChoice0_arr kvs o rest _ _ h]

theorem except_bind_pure {α β γ : Type} (b : β) (f : β → Except α γ) :
    (pure b : Except α β) >>= f = f b := rfl

theorem normalizePayload_moves_truthy_text
    (kvs o ds : List (String × Json)) (rest : List Json) (t : Json)
    (hnd : (o.map Prod.fst).Nodup)
    (hch : objLookup kvs "choices" = some (Json.arr (Json.obj o :: rest)))
    (hdl : (objLookup o "delta" = none ∧ ds = []) ∨
           (objLookup o "delta" = some (Json.obj ds) ∧ objLookup ds "content" = none))
    (htx : objLookup o "text" = some t)
    (htr : jsTruthy t = true) :
    normalizePayload (Json.obj kvs) =
      Except.ok (Json.obj (objSet kvs "choices" (Json.arr
        (Json.obj (objDelete (objSet o "delta" (Json.obj (objSet ds "content" t)))
          "text") :: rest)))) ∧
    objLookup (objDelete (objSet o "delta" (Json.obj (objSet ds "content" t)))
      "text") "text" = none ∧
    objLookup (objDelete (objSet o "delta" (Json.obj (objSet ds "content" t)))
      "text") "delta" = some (Json.obj (objSet ds "content" t)) ∧
    objLookup (objSet ds "content" t) "content" = some t := by
  have hdl_ne : ("delta" : String) ≠ "text" := by decide
  have hnd2 : ((objSet o "delta" (Json.obj (objSet ds "content" t))).map Prod.fst).Nodup :=
    nodup_keys_objSet o "delta" _ hnd
  refine ⟨?_, ?_, ?_, ?_⟩
  case _ =>
    rcases hdl with ⟨hdl, hds⟩ | ⟨hdl, hct⟩
    · -- delta absent: it is first created empty, then content is assigned into it
      subst hds
      have h1 : objLookup (objSet kvs "choices"
          (Json.arr (Json.obj (objSet o "delta" (Json.obj [])) :: rest))) "choices" =
          some (Json.arr (Json.obj (objSet o "delta" (Json.obj [])) :: rest)) :=
        objLookup_objSet_self kvs "choices" _
      have h2 : objLookup (objSet o "delta" (Json.obj [])) "delta" =
          some (Json.obj []) := objLookup_objSet_self o "delta" _
      have h3 : objLookup (objSet o "delta" (Json.obj [])) "text" =
          objLookup o "text" := objLookup_objSet_ne o "delta" "text" _ hdl_ne
      have h4 : objLookup (objSet kvs "choices"
          (Json.arr (Json.obj (objSet o "delta"
            (Json.obj (objSet [] "content" t))) :: rest))) "choices" =
          some (Json.arr (Json.obj (objSet o "delta"
            (Json.obj (objSet [] "content" t))) :: rest)) :=
        objLookup_objSet_self kvs "choices" _
      simp only [normalizePayload, jsChoices0_arr kvs o rest hch, except_bind_ok,
        except_bind_pure, optProp, getProp, hdl, setChoice0_arr kvs o rest _ _ hch,
        jsChoices0_arr _ _ rest h1, h2, objLookup, h3, htx, htr, if_true,
        setDeltaContent_arr _ _ [] rest t h1 h2, objSet_objSet_self,
        deleteChoice0Text_arr _ _ rest h4, objLookup_objSet_self]
    · -- delta already present (an object without content)
      have h1 : objLookup (objSet kvs "choices"
          (Json.arr (Json.obj (objSet o "delta"
            (Json.obj (objSet ds "content" t))) :: rest))) "choices" =
          some (Json.arr (Json.obj (objSet o "delta"
            (Json.obj (objSet ds "content" t))) :: rest)) :=
        objLookup_objSet_self kvs "choices" _
      simp only [normalizePayload, jsChoices0_arr kvs o rest hch, except_bind_ok,
        except_bind_pure, optProp, getProp, hdl, hct, htx, htr, if_true,
        setDeltaContent_arr kvs o ds rest t hch hdl,
        deleteChoice0Text_arr _ _ rest h1, objSet_objSet_self]
  case _ => exact objLookup_objDelete_self _ "text" hnd2
  case _ =>
    rw [objLookup_objDelete_ne _ "text" "delta" (by decide)]
    exact objLookup_objSet_self o "delta" _
  case _ => exact objLookup_objSet_self ds "content" t

theorem except_pure {α β : Type} (b : β) :
    (pure b : Except α β) = Except.ok b := rfl

/-- Claim C9 (amended, proved): for every non-sentinel payload whose
`choices` is an array headed by a (duplicate-free) object: if
`choices[0].delta` is absent it is created as an empty object, and if
`delta.content` is absent while a legacy `choices[0].text` field is
present AND TRUTHY, the value of `text` is moved into `delta.content` and
the `text` key is removed; in particular `{"choices":[{"text":"hi"}]}`
becomes `{"choices":[{"delta":{"content":"hi"}}]}` with no `text` key
remaining.  (The original claim's condition "text is present", refuted by
the `text = ""` counterexample, is tightened to "present and truthy"; a
present-but-falsy `text` stays in place.) -/
theorem normalizePayload_field_rules :
    (∀ (kvs o ds : List (String × Json)) (rest : List Json) (t : Json),
      (o.map Prod.fst).Nodup →
      objLookup kvs "choices" = some (Json.arr (Json.obj o :: rest)) →
      ((objLookup o "delta" = none ∧ ds = []) ∨
       (objLookup o "delta" = some (Json.obj ds) ∧ objLookup ds "content" = none)) →
      objLookup o "text" = some t →
      jsTruthy t = true →
      normalizePayload (Json.obj kvs) =
        Except.ok (Json.obj (objSet kvs "choices" (Json.arr
          (Json.obj (objDelete (objSet o "delta" (Json.obj (objSet ds "content" t)))
            "text") :: rest)))) ∧
      objLookup (objDelete (objSet o "delta" (Json.obj (objSet ds "content" t)))
        "text") "text" = none ∧
      objLookup (objDelete (objSet o "delta" (Json.obj (objSet ds "content" t)))
        "text") "delta" = some (Json.obj (objSet ds "content" t)) ∧
      objLookup (objSet ds "content" t) "content" = some t) ∧
    (∀ (kvs o : List (String × Json)) (rest : List Json),
      objLookup kvs "choices" = some (Json.arr (Json.obj o :: rest)) →
      objLookup o "delta" = none →
      objLookup o "text" = none →
      normalizePayload (Json.obj kvs) =
        Except.ok (Json.obj (objSet kvs "choices" (Json.arr
          (Json.obj (objSet o "delta" (Json.obj [])) :: rest))))) := by
  constructor
  · exact normalizePayload_moves_truthy_text
  · intro kvs o rest hch hdl htx
    have h1 : objLookup (objSet kvs "choices"
        (Json.arr (Json.obj (objSet o "delta" (Json.obj [])) :: rest))) "choices" =
        some (Json.arr (Json.obj (objSet o "delta" (Json.obj [])) :: rest)) :=
      objLookup_objSet_self kvs "choices" _
    have h2 : objLookup (objSet o "delta" (Json.obj [])) "delta" =
        some (Json.obj []) := objLookup_objSet_self o "delta" _
    have h3 : objLookup (objSet o "delta" (Json.obj [])) "text" =
        objLookup o "text" := objLookup_objSet_ne o "delta" "text" _ (by decide)
    simp only [normalizePayload, jsChoices0_arr kvs o rest hch, except_bind_ok,
      except_bind_pure, except_pure, optProp, getProp, hdl,
      setChoice0_arr kvs o rest _ _ hch, jsChoices0_arr _ _ rest h1, h2,
      objLookup, h3, htx]

theorem normalizePayload_field_rules_witness :
    jsTruthy (Json.str "hi") = true ∧
    objLookup [("text", Json.str "hi")] "delta" = none ∧
    normalizePayload hiTextPayload =
      Except.ok (Json.obj [("choices", Json.arr
        [Json.obj [("delta", Json.obj [("content", Json.str "hi")])]])]) :=
  ⟨rfl, rfl,
    (normalizePayload_field_rules.1
      [("choices", Json.arr [Json.obj [("text", Json.str "hi")]])]
      [("text", Json.str "hi")] [] [] (Json.str "hi")
      (by simp) rfl (Or.inl ⟨rfl, rfl⟩) rfl rfl).1⟩

theorem isPrefixOf_append_self (l r : List Char) : l.isPrefixOf (l ++ r) = true := by
  induction l with
  | nil => simp [List.isPrefixOf]
  | cons c t ih => simp [List.isPrefixOf, ih]

theorem infixOf_append_self (n r : List Char) : infixOf n (n ++ r) = true := by
  cases n with
  | nil =>
    cases r with
    | nil => rfl
    | cons c t => simp [infixOf, List.isPrefixOf]
  | cons c t =>
    have h := isPrefixOf_append_self (c :: t) r
    simp only [List.cons_append] at h
    simp [infixOf, h]

theorem refreshMsg_data (st : String) :
    (refreshMsg st).data = "Failed to refresh token".data ++ (':' :: ' ' :: st.data) := by
  show ("Failed to refresh token: " ++ st).data = _
  rw [String.data_append]
  rfl

/-- Every message thrown by a failed refresh contains the substring the
catch block tests for. -/
theorem strIncludes_refreshMsg (st : String) :
    strIncludes (refreshMsg st) "Failed to refresh token" = true := by
  show infixOf "Failed to refresh token".data (refreshMsg st).data = true
  rw [refreshMsg_data]
  exact infixOf_append_self _ _

/-- Claim C6 (confirmed): for a cached record within the 300000 ms renewal
margin, `getValidToken` makes exactly one refresh call; on refresh success
no registration happens and the refreshed record is stored; on refresh
failure exactly one registration call follows, a successful registration's
record is stored and its token returned, and a failed fallback
registration's error is surfaced to the caller. -/
theorem getValidToken_renewal (info : TokenInfo) (now : Int)
    (refreshNet : NetResult) (registerNet : Nat → NetResult)
    (h : info.expiresAt - now ≤ 300000) :
    (getValidToken (some info) now refreshNet registerNet).refreshCalls = 1 ∧
    (∀ ni, refreshNet = NetResult.ok ni →
      (getValidToken (some info) now refreshNet registerNet).registerCalls = 0 ∧
      (getValidToken (some info) now refreshNet registerNet).store = some ni ∧
      (getValidToken (some info) now refreshNet registerNet).result =
        Except.ok ni.token) ∧
    (∀ st, refreshNet = NetResult.fail st →
      (getValidToken (some info) now refreshNet registerNet).registerCalls = 1 ∧
      (∀ ni, registerNet 0 = NetResult.ok ni →
        (getValidToken (some info) now refreshNet registerNet).store = some ni ∧
        (getValidToken (some info) now refreshNet registerNet).result =
          Except.ok ni.token) ∧
      (∀ st2, registerNet 0 = NetResult.fail st2 →
        (getValidToken (some info) now refreshNet registerNet).result =
          Except.error (registerMsg st2))) := by
  have hle : info.expiresAt ≤ now + 300000 := by omega
  cases refreshNet with
  | ok ni =>
    refine ⟨?_, ?_, ?_⟩
    · simp [getValidToken, hle]
    · intro ni2 hni
      injection hni with hni
      subst hni
      simp [getValidToken, hle]
    · intro st hst
      exact absurd hst (by simp)
  | fail st =>
    refine ⟨?_, ?_, ?_⟩
    · simp [getValidToken, hle, authCatch, strIncludes_refreshMsg st]
      cases hr : registerNet 0 <;> simp
    · intro ni2 hni
      exact absurd hni (by simp)
    · intro st2 hst
      injection hst with hst
      subst hst
      refine ⟨?_, ?_, ?_⟩
      · simp only [getValidToken, authCatch, strIncludes_refreshMsg st]
        cases hr : registerNet 0 <;> simp [hr, hle]
      · intro ni hr
        simp [getValidToken, hle, authCatch, strIncludes_refreshMsg st, hr]
      · intro st3 hr
        simp [getValidToken, hle, authCatch, strIncludes_refreshMsg st, hr]

theorem getValidToken_renewal_witness :
    ((⟨"tok", "ref", 1000⟩ : TokenInfo).expiresAt - 1000 ≤ 300000) ∧
    ((getValidToken (some ⟨"tok", "ref", 1000⟩) 1000
        (NetResult.fail "500") (fun _ => NetResult.ok ⟨"t2", "r2", 99⟩)).refreshCalls = 1) ∧
    ((getValidToken (some ⟨"tok", "ref", 1000⟩) 1000
        (NetResult.fail "500") (fun _ => NetResult.ok ⟨"t2", "r2", 99⟩)).store =
      some ⟨"t2", "r2", 99⟩) :=
  ⟨by decide,
   (getValidToken_renewal ⟨"tok", "ref", 1000⟩ 1000 (NetResult.fail "500")
      (fun _ => NetResult.ok ⟨"t2", "r2", 99⟩) (by decide)).1,
   (((getValidToken_renewal ⟨"tok", "ref", 1000⟩ 1000 (NetResult.fail "500")
      (fun _ => NetResult.ok ⟨"t2", "r2", 99⟩) (by decide)).2.2 "500" rfl).2.1
      ⟨"t2", "r2", 99⟩ rfl).1⟩

/-- Claim C7 counterexample: the claim says a registration failure is
always fatal and never triggers the fallback.  The catch block decides by
substring-matching the error message, so a FIRST registration failure
whose upstream status text is `"Failed to refresh token"` produces the
message `"Failed to register user: Failed to refresh token"`, which
matches: a second registration call follows and its token is returned —
the registration failure was neither fatal nor fallback-free. -/
theorem getValidToken_register_failure_triggers_fallback :
    (getValidToken none 0 (NetResult.fail "unused") evilRegisterNet).registerCalls = 2 ∧
    (getValidToken none 0 (NetResult.fail "unused") evilRegisterNet).result =
      Except.ok "tok2" := by decide

/-- Claim C7 (amended, proved): the one-shot registration fallback fires
exactly when the caught error's message contains the substring
`"Failed to refresh token"`.  Every refresh failure's message does, so a
refresh failure always triggers exactly one registration; a registration
failure whose message lacks the substring propagates unchanged with no
fallback; but a registration failure whose status text happens to contain
the substring triggers one further registration attempt. -/
theorem getValidToken_fallback_iff_substring
    (now : Int) (refreshNet : NetResult) (registerNet : Nat → NetResult) :
    (∀ (info : TokenInfo) (st : String),
      info.expiresAt - now ≤ 300000 → refreshNet = NetResult.fail st →
      (getValidToken (some info) now refreshNet registerNet).registerCalls = 1) ∧
    (∀ st, registerNet 0 = NetResult.fail st →
      strIncludes (registerMsg st) "Failed to refresh token" = false →
      (getValidToken none now refreshNet registerNet).registerCalls = 1 ∧
      (getValidToken none now refreshNet registerNet).result =
        Except.error (registerMsg st)) ∧
    (∀ st, registerNet 0 = NetResult.fail st →
      strIncludes (registerMsg st) "Failed to refresh token" = true →
      (getValidToken none now refreshNet registerNet).registerCalls = 2) := by
  refine ⟨?_, ?_, ?_⟩
  · intro info st hmargin hrn
    subst hrn
    have hle : info.expiresAt ≤ now + 300000 := by omega
    simp only [getValidToken, authCatch, strIncludes_refreshMsg st]
    cases hr : registerNet 0 <;> simp [hr, hle]
  · intro st hr hinc
    simp [getValidToken, hr, authCatch, hinc]
  · intro st hr hinc
    simp only [getValidToken, hr, authCatch, hinc]
    cases h1 : registerNet 1 <;> simp [h1]

theorem getValidToken_fallback_iff_substring_witness :
    strIncludes (registerMsg "boom") "Failed to refresh token" = false ∧
    (getValidToken none 0 (NetResult.fail "x")
      (fun _ => NetResult.fail "boom")).registerCalls = 1 ∧
    (getValidToken none 0 (NetResult.fail "x")
      (fun _ => NetResult.fail "boom")).result =
      Except.error (registerMsg "boom") :=
  ⟨by decide,
   ((getValidToken_fallback_iff_substring 0 (NetResult.fail "x")
      (fun _ => NetResult.fail "boom")).2.1 "boom" rfl (by decide)).1,
   ((getValidToken_fallback_iff_substring 0 (NetResult.fail "x")
      (fun _ => NetResult.fail "boom")).2.1 "boom" rfl (by decide)).2⟩

/-- Claim C8 (confirmed): with a cached record more than 300000 ms from
expiry, `getValidToken` returns the cached token unchanged with exactly
one store read and no store write, no refresh call and no registration
call; and on every path each invocation performs at most one store read
and at most one store write. -/
theorem getValidToken_fresh_cache_frame (info : TokenInfo) (now : Int)
    (refreshNet : NetResult) (registerNet : Nat → NetResult)
    (h : info.expiresAt - now > 300000) :
    getValidToken (some info) now refreshNet registerNet =
      ⟨Except.ok info.token, some info, 1, 0, 0, 0⟩ ∧
    (∀ (kv : Option TokenInfo) (n : Int) (rn : NetResult)
       (regn : Nat → NetResult),
      (getValidToken kv n rn regn).reads ≤ 1 ∧
      (getValidToken kv n rn regn).writes ≤ 1) := by
  constructor
  · have hgt : ¬ info.expiresAt ≤ now + 300000 := by omega
    simp [getValidToken, hgt]
  · intro kv n rn regn
    cases kv with
    | none =>
      cases hr : regn 0 with
      | ok ni => simp [getValidToken, hr]
      | fail st =>
        simp only [getValidToken, hr, authCatch]
        split
        · cases h1 : regn 1 <;> simp [h1]
        · simp
    | some info2 =>
      by_cases hge : n ≥ info2.expiresAt - 300000
      · simp only [getValidToken]
        rw [if_pos hge]
        cases rn with
        | ok ni => simp
        | fail st =>
          simp only [authCatch]
          split
          · cases h1 : regn 0 <;> simp [h1]
          · simp
      · simp only [getValidToken]
        rw [if_neg hge]
        simp

theorem getValidToken_fresh_cache_frame_witness :
    ((⟨"tok", "ref", 1000000000⟩ : TokenInfo).expiresAt - 0 > 300000) ∧
    getValidToken (some ⟨"tok", "ref", 1000000000⟩) 0 (NetResult.fail "x")
      (fun _ => NetResult.fail "y") =
      ⟨Except.ok "tok", some ⟨"tok", "ref", 1000000000⟩, 1, 0, 0, 0⟩ :=
  ⟨by decide,
   (getValidToken_fresh_cache_frame ⟨"tok", "ref", 1000000000⟩ 0
      (NetResult.fail "x") (fun _ => NetResult.fail "y") (by decide)).1⟩
